import Mathlib

/-!
# Image pull orchestration (`daemon/containerd/image_pull.go`)

A shallow embedding of `ImageService.PullImage` and
`ImageService.applySnapshotterOpts`, the two functions of
`src/daemon/containerd/image_pull.go`.

What the two functions call lives outside that file and is embedded as follows.
* Packages `reference` and `digest`: executable matchers for the reference
  grammar and the digest format, with `ParseNormalizedNamed`, `TrimNamed`,
  `WithTag`, `WithDigest` and `digest.Parse` on top of them.
* Package `errdefs` and the job tracker (`newJobs`, `jobs.Add`): from the words
  of the specification.
* The transfer engine (`i.client.Pull`), `i.newResolverFromAuthConfig` and
  `platforms.Format`: fields of `ImageService`, so every statement holds for all
  of them.
* The options of the transfer engine: one constructor for each library call that
  builds an option.

Go strings are embedded as `String`; the grammar matchers work on the
character list of a string.  A Go `error` result is `Option GoError`
(`none` is `nil`), a `(value, error)` result is `Except GoError value`.
Effects are a trace: `PullImage` returns the list of calls it made to its
collaborators, in order, next to its error result.
-/

namespace Moby

/-! ## Errors -/

/-- Go `error` values: sentinel errors of the libraries and of the transfer
engine, and the `errdefs` invalid-parameter wrapper around a cause. -/
inductive GoError where
  | sentinel (msg : String)
  | invalidParameter (cause : GoError)
deriving DecidableEq, Repr

namespace errdefs

/-- Modelled from the spec: `errdefs.InvalidParameter` (package `errdefs`, not
under `src/`) returns an "`InvalidParameter`-class error" wrapping the cause it
is given. -/
def InvalidParameter (err : GoError) : GoError := GoError.invalidParameter err

/-- Membership in the invalid-parameter class (`errdefs.IsInvalidParameter`). -/
def IsInvalidParameter : GoError → Bool
  | GoError.invalidParameter _ => true
  | GoError.sentinel _ => false

end errdefs

instance instDecidableEqExcept {ε α : Type} [DecidableEq ε] [DecidableEq α] :
    DecidableEq (Except ε α)
  | Except.ok a, Except.ok b =>
    if h : a = b then isTrue (by rw [h]) else isFalse (fun h2 => h (Except.ok.inj h2))
  | Except.error a, Except.error b =>
    if h : a = b then isTrue (by rw [h]) else isFalse (fun h2 => h (Except.error.inj h2))
  | Except.ok _, Except.error _ => isFalse (fun h => Except.noConfusion h)
  | Except.error _, Except.ok _ => isFalse (fun h => Except.noConfusion h)

/-! ## Character classes and small string helpers -/

def isLower (c : Char) : Bool := decide ('a' ≤ c) && decide (c ≤ 'z')
def isUpper (c : Char) : Bool := decide ('A' ≤ c) && decide (c ≤ 'Z')
def isDigit (c : Char) : Bool := decide ('0' ≤ c) && decide (c ≤ '9')
/-- Class `[a-z0-9]`. -/
def isLowerAlnum (c : Char) : Bool := isLower c || isDigit c
/-- Class `[a-zA-Z0-9]`. -/
def isAlnum (c : Char) : Bool := isLower c || isUpper c || isDigit c
/-- Class `[a-zA-Z]`. -/
def isAlpha (c : Char) : Bool := isLower c || isUpper c
/-- Class `[a-f0-9]`. -/
def isLowerHex (c : Char) : Bool := (decide ('a' ≤ c) && decide (c ≤ 'f')) || isDigit c
/-- Class `[[:xdigit:]]`, that is `[0-9A-Fa-f]`. -/
def isXDigit (c : Char) : Bool := isLowerHex c || (decide ('A' ≤ c) && decide (c ≤ 'F'))
/-- Class `\w`, that is `[0-9A-Za-z_]`. -/
def isWord (c : Char) : Bool := isAlnum c || c == '_'

/-- Cut a character list at the first occurrence of `sep`
(`strings.Index` / `strings.IndexRune` followed by slicing). -/
def splitFirst (sep : Char) : List Char → Option (List Char × List Char)
  | [] => none
  | c :: cs =>
    if c = sep then some ([], cs)
    else match splitFirst sep cs with
      | some (a, b) => some (c :: a, b)
      | none => none

/-- Cut a character list at the last occurrence of `sep`. -/
def splitLast (sep : Char) (s : List Char) : Option (List Char × List Char) :=
  match splitFirst sep s.reverse with
  | some (afterRev, beforeRev) => some (beforeRev.reverse, afterRev.reverse)
  | none => none

/-- All pieces of a character list between occurrences of `sep`. -/
def splitOn (sep : Char) : List Char → List (List Char)
  | [] => [[]]
  | c :: cs =>
    if c = sep then [] :: splitOn sep cs
    else match splitOn sep cs with
      | [] => [[c]]
      | h :: t => (c :: h) :: t

/-- Pieces joined back with `sep` between them. -/
def joinWith (sep : Char) : List (List Char) → List Char
  | [] => []
  | [a] => a
  | a :: b :: rest => a ++ sep :: joinWith sep (b :: rest)

/-- Length in bytes of the UTF-8 encoding, Go's `len` of a string. -/
def byteLen (s : List Char) : Nat := s.foldr (fun c n => c.utf8Size + n) 0

/-- ASCII lower-casing; `strings.ToLower` agrees with it on ASCII text. -/
def toLower (s : List Char) : List Char := s.map Char.toLower

/-! ## Package `digest` (github.com/opencontainers/go-digest) -/

/-- A content digest: in Go a string type, `algorithm:encoded`. -/
structure Digest where
  val : String
deriving DecidableEq, Repr

namespace digest

def ErrDigestInvalidFormat : GoError := GoError.sentinel "invalid checksum digest format"
def ErrDigestInvalidLength : GoError := GoError.sentinel "invalid checksum digest length"
def ErrDigestUnsupported : GoError := GoError.sentinel "unsupported digest algorithm"

/-- Size in bytes of the hash of a registered algorithm (`Algorithm.Size`);
`none` when the algorithm is not registered (`Algorithm.Available` is false). -/
def algorithmSize (a : List Char) : Option Nat :=
  if a = "sha256".data then some 32
  else if a = "sha384".data then some 48
  else if a = "sha512".data then some 64
  else none

/-- One or more runs of `[a-z0-9]+` separated by single characters of `[.+_-]`:
the algorithm part of `DigestRegexp`.  `inRun` tells whether the previous
character belonged to a run. -/
def matchAlgorithmPart (inRun : Bool) : List Char → Bool
  | [] => inRun
  | c :: cs =>
    if isLowerAlnum c then matchAlgorithmPart true cs
    else if inRun && (c == '.' || c == '+' || c == '_' || c == '-') then matchAlgorithmPart false cs
    else false

/-- Anchored `DigestRegexp`: `[a-z0-9]+(?:[.+_-][a-z0-9]+)*:[a-zA-Z0-9=_-]+`. -/
def matchDigestRegexp (s : List Char) : Bool :=
  match splitFirst ':' s with
  | some (a, e) =>
    matchAlgorithmPart false a && !e.isEmpty
      && e.all (fun c => isAlnum c || c == '=' || c == '_' || c == '-')
  | none => false

/-- Modelled from the spec: method `Digest.Validate` of package `digest` (not
under `src/`), the test for "a valid content digest (hash-algorithm-prefixed
hex/base encoding)": the text is `algorithm:encoded`, the algorithm is one of
the registered `sha256`, `sha384`, `sha512`, and the encoded part is lower-case
hex of twice the hash size. -/
def Validate (s : List Char) : Option GoError :=
  match splitFirst ':' s with
  | none => some ErrDigestInvalidFormat
  | some (a, e) =>
    if a.isEmpty || e.isEmpty then some ErrDigestInvalidFormat
    else match algorithmSize a with
      | none =>
        if !matchDigestRegexp s then some ErrDigestInvalidFormat
        else some ErrDigestUnsupported
      | some size =>
        if size * 2 ≠ byteLen e then some ErrDigestInvalidLength
        else if e.all isLowerHex then none
        else some ErrDigestInvalidFormat

/-- Modelled from the spec: function `digest.Parse` (not under `src/`): the
string as a digest when it validates, the validation error otherwise. -/
def Parse (s : String) : Except GoError Digest :=
  match Validate s.data with
  | none => Except.ok ⟨s⟩
  | some err => Except.error err

end digest

/-! ## Package `reference` (github.com/docker/distribution/reference) -/

/-- Modelled from the spec: a named reference (Go interface `reference.Named`,
not under `src/`): a repository name, split into domain and path, with an
optional tag and an optional digest.  The Go dynamic types are told apart by
which of the two are present: `repository` (neither), `taggedReference`,
`canonicalReference`, `reference` (both).  That a tag and a digest can be
present together is why `PullImage` calls `TrimNamed` before `WithDigest`. -/
structure Named where
  domain : String
  path : String
  tag : Option String
  digest : Option Digest
deriving DecidableEq, Repr

/-- Method `Name` of a named reference: the domain and the path joined by a
slash, or the path alone when the domain is empty. -/
def Named.Name (r : Named) : String :=
  if r.domain = "" then r.path else r.domain ++ "/" ++ r.path

/-- Method `String` of the four named reference types. -/
def Named.String (r : Named) : String :=
  match r.tag, r.digest with
  | none, none => r.Name
  | some t, none => r.Name ++ ":" ++ t
  | none, some d => r.Name ++ "@" ++ d.val
  | some t, some d => r.Name ++ ":" ++ t ++ "@" ++ d.val

namespace reference

def ErrReferenceInvalidFormat : GoError := GoError.sentinel "invalid reference format"
def ErrTagInvalidFormat : GoError := GoError.sentinel "invalid tag format"
def ErrDigestInvalidFormat : GoError := GoError.sentinel "invalid digest format"
def ErrNameContainsUppercase : GoError := GoError.sentinel "repository name must be lowercase"
def ErrNameEmpty : GoError := GoError.sentinel "repository name must have at least one component"
def ErrNameTooLong : GoError :=
  GoError.sentinel "repository name must not be more than 255 characters"
def errIdentifier : GoError :=
  GoError.sentinel "invalid repository name, cannot specify 64-byte hexadecimal strings"
def errRemoteNameNotLowercase : GoError :=
  GoError.sentinel "invalid reference format: repository name must be lowercase"

def NameTotalLengthMax : Nat := 255
def legacyDefaultDomain : String := "index.docker.io"
def defaultDomain : String := "docker.io"
def officialRepoName : String := "library"

/-- Anchored `TagRegexp`: `[\w][\w.-]{0,127}`. -/
def matchTag (s : List Char) : Bool :=
  match s with
  | [] => false
  | c :: cs =>
    isWord c && cs.all (fun x => isWord x || x == '.' || x == '-') && decide (cs.length ≤ 127)

/-- Components `[A-Za-z][A-Za-z0-9]*` separated by single characters of `[-_+.]`:
the algorithm part of the reference grammar's `DigestRegexp`. -/
def matchDigestAlgorithm (inComponent : Bool) : List Char → Bool
  | [] => inComponent
  | c :: cs =>
    if isAlpha c then matchDigestAlgorithm true cs
    else if inComponent && isDigit c then matchDigestAlgorithm true cs
    else if inComponent && (c == '-' || c == '_' || c == '+' || c == '.') then
      matchDigestAlgorithm false cs
    else false

/-- Anchored `DigestRegexp` of the reference grammar:
`[A-Za-z][A-Za-z0-9]*(?:[-_+.][A-Za-z][A-Za-z0-9]*)*[:][[:xdigit:]]{32,}`. -/
def matchDigest (s : List Char) : Bool :=
  match splitFirst ':' s with
  | some (a, h) => matchDigestAlgorithm false a && h.all isXDigit && decide (32 ≤ h.length)
  | none => false

/-- States of the matcher of a path component. -/
inductive CompState where
  | start
  | alnum
  | dot
  | underscore
  | underscore2
  | dash
deriving DecidableEq, Repr

/-- Anchored `nameComponentRegexp`: runs of `[a-z0-9]+` separated by one period,
one or two underscores, or any number of dashes. -/
def matchNameComponent (st : CompState) : List Char → Bool
  | [] => st == CompState.alnum
  | c :: cs =>
    if isLowerAlnum c then matchNameComponent CompState.alnum cs
    else match st with
      | CompState.alnum =>
        if c == '.' then matchNameComponent CompState.dot cs
        else if c == '_' then matchNameComponent CompState.underscore cs
        else if c == '-' then matchNameComponent CompState.dash cs
        else false
      | CompState.underscore =>
        if c == '_' then matchNameComponent CompState.underscore2 cs else false
      | CompState.dash =>
        if c == '-' then matchNameComponent CompState.dash cs else false
      | _ => false

/-- Anchored `domainComponentRegexp`:
`[a-zA-Z0-9]|[a-zA-Z0-9][a-zA-Z0-9-]*[a-zA-Z0-9]`. -/
def matchDomainComponent (s : List Char) : Bool :=
  match s, s.reverse with
  | first :: _, last :: _ =>
    isAlnum first && isAlnum last && s.all (fun c => isAlnum c || c == '-')
  | _, _ => false

/-- Anchored `DomainRegexp`: domain components separated by periods, then an
optional colon and port number. -/
def matchDomain (s : List Char) : Bool :=
  match splitFirst ':' s with
  | some (host, port) =>
    (splitOn '.' host).all matchDomainComponent && !port.isEmpty && port.all isDigit
  | none => (splitOn '.' s).all matchDomainComponent

/-- Anchored `NameRegexp` with its two groups, `(?:(domain)/)?(path)`: the
domain is the first slash-separated piece when that piece is a domain and the
rest is a path, and is empty when the whole name is a path. -/
def matchName (s : List Char) : Option (List Char × List Char) :=
  match splitOn '/' s with
  | first :: second :: rest =>
    if matchDomain first && (second :: rest).all (matchNameComponent CompState.start) then
      some (first, joinWith '/' (second :: rest))
    else if (first :: second :: rest).all (matchNameComponent CompState.start) then
      some ([], s)
    else none
  | pieces =>
    if pieces.all (matchNameComponent CompState.start) then some ([], s) else none

/-- The name and tag groups of `ReferenceRegexp` on the text before any at-sign:
a tag is what follows the last colon when no slash comes after that colon. -/
def matchNameTag (s : List Char) : Option (List Char × List Char) :=
  match splitLast ':' s with
  | some (name, tag) =>
    if tag.contains '/' then
      (if (matchName s).isSome then some (s, []) else none)
    else if (matchName name).isSome && matchTag tag then some (name, tag)
    else none
  | none => if (matchName s).isSome then some (s, []) else none

/-- Anchored `ReferenceRegexp`, `^(name)(?::(tag))?(?:@(digest))?$`, with its
three groups; an absent group is empty. -/
def matchReference (s : List Char) : Option (List Char × List Char × List Char) :=
  match splitFirst '@' s with
  | some (front, dgst) =>
    if matchDigest dgst then
      match matchNameTag front with
      | some (name, tag) => some (name, tag, dgst)
      | none => none
    else none
  | none =>
    match matchNameTag s with
    | some (name, tag) => some (name, tag, [])
    | none => none

/-- Modelled from the spec: function `reference.Parse` (not under `src/`), the
"standard reference grammar", for a text whose name group is not empty (the
name group of `ReferenceRegexp` always holds at least one character, so the
digest-only and empty results of `getBestReferenceType` do not arise). -/
def Parse (s : List Char) : Except GoError Named :=
  match matchReference s with
  | none =>
    if s.isEmpty then Except.error ErrNameEmpty
    else if (matchReference (toLower s)).isSome then Except.error ErrNameContainsUppercase
    else Except.error ErrReferenceInvalidFormat
  | some (name, tag, dgst) =>
    if byteLen name > NameTotalLengthMax then Except.error ErrNameTooLong
    else
      let (domain, path) := (matchName name).getD ([], name)
      let tagField : Option String := if tag.isEmpty then none else some (String.mk tag)
      if dgst.isEmpty then
        Except.ok { domain := String.mk domain, path := String.mk path,
                    tag := tagField, digest := none }
      else
        match digest.Parse (String.mk dgst) with
        | Except.error err => Except.error err
        | Except.ok d =>
          Except.ok { domain := String.mk domain, path := String.mk path,
                      tag := tagField, digest := some d }

/-- Modelled from the spec: function `splitDockerDomain` (not under `src/`), the
"implied registry/repository expansion": the domain is the text before the first slash
when that text holds a period or a colon or is `localhost`, and the default
domain otherwise; a single-component path on the default domain is put under
`library/`. -/
def splitDockerDomain (name : List Char) : List Char × List Char :=
  let (domain, remainder) :=
    match splitFirst '/' name with
    | none => (defaultDomain.data, name)
    | some (front, rest) =>
      if !(front.contains '.' || front.contains ':') && front ≠ "localhost".data then
        (defaultDomain.data, name)
      else (front, rest)
  let domain := if domain = legacyDefaultDomain.data then defaultDomain.data else domain
  let remainder :=
    if domain = defaultDomain.data && !remainder.contains '/' then
      officialRepoName.data ++ '/' :: remainder
    else remainder
  (domain, remainder)

/-- Modelled from the spec: function `reference.ParseNormalizedNamed` (not under
`src/`): the "input repository name is parsed and normalized".  Lower-casing is
the ASCII one: on a name that holds a character outside ASCII the call fails
here as in Go (no such text matches `ReferenceRegexp`), possibly with another of
the sentinels. -/
def ParseNormalizedNamed (s : String) : Except GoError Named :=
  if s.data.length = 64 && s.data.all isLowerHex then Except.error errIdentifier
  else
    let (domain, remainder) := splitDockerDomain s.data
    let remoteName :=
      match splitFirst ':' remainder with
      | some (front, _) => front
      | none => remainder
    if toLower remoteName ≠ remoteName then Except.error errRemoteNameNotLowercase
    else Parse (domain ++ '/' :: remainder)

/-- Modelled from the spec: function `reference.TrimNamed` (not under `src/`):
the repository of a reference, "stripped of any existing tag" and digest. -/
def TrimNamed (ref : Named) : Named :=
  { domain := ref.domain, path := ref.path, tag := none, digest := none }

/-- Modelled from the spec: function `reference.WithTag` (not under `src/`): the
tag is "attached to the name", and "invalid tag syntax" is an attachment
failure.  The name is not trimmed: a digest that `name` carries is kept. -/
def WithTag (name : Named) (tag : String) : Except GoError Named :=
  if !matchTag tag.data then Except.error ErrTagInvalidFormat
  else Except.ok { domain := name.domain, path := name.path,
                   tag := some tag, digest := name.digest }

/-- Modelled from the spec: function `reference.WithDigest` (not under `src/`):
"the digest is attached".  The name is not trimmed: a tag that `name` carries is
kept, which is why `PullImage` trims the name first. -/
def WithDigest (name : Named) (dgst : Digest) : Except GoError Named :=
  if !matchDigest dgst.val.data then Except.error ErrDigestInvalidFormat
  else Except.ok { domain := name.domain, path := name.path,
                   tag := name.tag, digest := some dgst }

end reference

/-! ## Descriptors and the job tracker -/

/-- A platform constraint (`specs.Platform`). -/
structure Platform where
  Architecture : String
  OS : String
  OSVersion : String
  OSFeatures : List String
  Variant : String
deriving DecidableEq, Repr

/-- A content descriptor (`specs.Descriptor`): media type, digest, size. -/
structure Descriptor where
  MediaType : String
  Digest : Moby.Digest
  Size : Int
deriving DecidableEq, Repr

namespace images

/-- The media type of the legacy schema-1 manifest. -/
def MediaTypeDockerSchema1Manifest : String :=
  "application/vnd.docker.distribution.manifest.v1+prettyjws"

def MediaTypeDockerSchema2Manifest : String :=
  "application/vnd.docker.distribution.manifest.v2+json"

def MediaTypeDockerSchema2LayerGzip : String :=
  "application/vnd.docker.image.rootfs.diff.tar.gzip"

end images

/-- Status of a tracked job. -/
inductive JobStatus where
  | queued
  | inProgress (offset : Nat)
  | complete
deriving DecidableEq, Repr

/-- A tracked job: the descriptor it derives from (digest, size) and its status. -/
structure Job where
  desc : Descriptor
  status : JobStatus
deriving DecidableEq, Repr

/-- Modelled from the spec: the Job Tracker (type `jobs` of this package, not
under `src/`): the tracked jobs in the order they were first observed, at most
one for a digest ("set semantics keyed by digest"). -/
structure jobs where
  descs : List Job
deriving DecidableEq, Repr

/-- Modelled from the spec: `newJobs` (not under `src/`), the tracker a pull
starts with, tracking nothing. -/
def newJobs : jobs := { descs := [] }

/-- Modelled from the spec: `jobs.Add` (not under `src/`): "adding a descriptor
whose digest is already tracked updates size (if previously unknown) but does
not create a duplicate entry or reset progress"; a digest seen for the first
time gets a new queued job.  A size of zero stands for an unknown size. -/
def jobs.Add (j : jobs) (desc : Descriptor) : jobs :=
  if j.descs.any (fun job => job.desc.Digest = desc.Digest) then
    { descs := j.descs.map (fun job =>
        if job.desc.Digest = desc.Digest ∧ job.desc.Size = 0 then
          { job with desc := { job.desc with Size := desc.Size } }
        else job) }
  else
    { descs := j.descs ++ [{ desc := desc, status := JobStatus.queued }] }

/-- Modelled from the spec: `Snapshot`, the ordered sequence of tracked jobs. -/
def jobs.Snapshot (j : jobs) : List Job := j.descs

/-! ## Options of the transfer engine -/

/-- Credentials (`registry.AuthConfig`). -/
structure AuthConfig where
  Username : String
  Password : String
  Auth : String
  ServerAddress : String
  IdentityToken : String
  RegistryToken : String
deriving DecidableEq, Repr

/-- A resolver capability (`remotes.Resolver`), known by an identity only. -/
structure Resolver where
  ident : Nat
deriving DecidableEq, Repr

/-- A content-discovery handler (`images.Handler`): called on a descriptor, it
returns the children and an error.  The tracker the Go closure captures by
pointer is passed in and out. -/
abbrev Handler := jobs → Descriptor → jobs × (List Descriptor × Option GoError)

/-- A handler wrapper, by the library call that builds it. -/
inductive HandlerWrapper where
  /-- Built by `stargzsource.AppendDefaultLabelsHandlerWrapper(ref, prefetchSize)`. -/
  | stargzAppendDefaultLabels (ref : String) (prefetchSize : Int)
  /-- Built by `nyduslabel.AppendLabelsHandlerWrapper(ref)`. -/
  | nydusAppendLabels (ref : String)
deriving DecidableEq, Repr

/-- An option for the transfer engine (`containerd.RemoteOpt`), by the library
call that builds it. -/
inductive RemoteOpt where
  | WithPlatform (platform : String)
  | WithResolver (resolver : Resolver)
  | WithImageHandler (h : Handler)
  | WithPullUnpack
  | WithPullSnapshotter (snapshotterName : String)
  | WithImageHandlerWrapper (w : HandlerWrapper)

/-! ## The image service -/

/-- The receiver of `PullImage` with the collaborators the function calls.
`β` is the type of the second result of `newResolverFromAuthConfig`, whose
declaration is not under `src/`. -/
structure ImageService (β : Type) where
  /-- Field `snapshotter`. -/
  snapshotter : String
  /-- Method `newResolverFromAuthConfig`. -/
  newResolverFromAuthConfig : Option AuthConfig → Resolver × β
  /-- Error result of `i.client.Pull(ctx, ref, opts...)`. -/
  clientPull : String → List RemoteOpt → Option GoError
  /-- Function `platforms.Format`. -/
  platformsFormat : Platform → String

/-- What `PullImage` does to its collaborators, in order. -/
inductive Event where
  /-- Call `showProgress(ctx, jobs, out, ...)`: the progress reporter starts
  writing to the output sink. -/
  | showProgress
  /-- Call `i.client.Pull(ctx, ref, opts...)`. -/
  | pullCalled (ref : String) (opts : List RemoteOpt)
  /-- Return of that call with its error result. -/
  | pullReturned (err : Option GoError)
  /-- Call `finishProgress()`: the reporter is stopped and flushed. -/
  | finishProgress

def Event.isShowProgress : Event → Bool
  | Event.showProgress => true
  | _ => false

def Event.isPullCalled : Event → Bool
  | Event.pullCalled _ _ => true
  | _ => false

def Event.isPullReturned : Event → Bool
  | Event.pullReturned _ => true
  | _ => false

def Event.isFinishProgress : Event → Bool
  | Event.finishProgress => true
  | _ => false

/-- Method `ImageService.applySnapshotterOpts`. -/
def applySnapshotterOpts {β : Type} (i : ImageService β) (opts : List RemoteOpt)
    (ref : Named) : List RemoteOpt :=
  let opts := opts ++ [RemoteOpt.WithPullUnpack]
  let opts := opts ++ [RemoteOpt.WithPullSnapshotter i.snapshotter]
  let wrapper : Option HandlerWrapper :=
    if i.snapshotter = "stargz" then
      let prefetchSize : Int := 10 * 1024 * 1024
      some (HandlerWrapper.stargzAppendDefaultLabels ref.String prefetchSize)
    else if i.snapshotter = "nydus" then
      some (HandlerWrapper.nydusAppendLabels ref.String)
    else none
  match wrapper with
  | some w => opts ++ [RemoteOpt.WithImageHandlerWrapper w]
  | none => opts

/-- The handler `h` of `PullImage`: a descriptor that is not a schema-1 manifest
is added to the tracker; no children, no error. -/
def pullImageHandler : Handler := fun jobs desc =>
  let jobs :=
    if desc.MediaType ≠ images.MediaTypeDockerSchema1Manifest then jobs.Add desc else jobs
  (jobs, ([], none))

/-- The tracker after a handler has been called on each descriptor of a
sequence in turn. -/
def handleAll (h : Handler) (j : jobs) (ds : List Descriptor) : jobs :=
  ds.foldl (fun acc d => (h acc d).1) j

/-- The digests of the tracked jobs, in order. -/
def trackedDigests (j : jobs) : List Digest := j.descs.map (fun job => job.desc.Digest)

/-- Whether a descriptor is not a legacy schema-1 manifest. -/
def notLegacy (d : Descriptor) : Bool :=
  decide (d.MediaType ≠ images.MediaTypeDockerSchema1Manifest)

/-- The reference `PullImage` computes from `image` and `tagOrDigest` before it
does anything else (the statements from `reference.ParseNormalizedNamed` to the
end of the `if tagOrDigest != ""` block), with the error it returns there. -/
def pullImageRef (image tagOrDigest : String) : Except GoError Named :=
  match reference.ParseNormalizedNamed image with
  | Except.error err => Except.error (errdefs.InvalidParameter err)
  | Except.ok ref =>
    if tagOrDigest ≠ "" then
      let attached :=
        match digest.Parse tagOrDigest with
        | Except.ok dgst => reference.WithDigest (reference.TrimNamed ref) dgst
        | Except.error _ => reference.WithTag ref tagOrDigest
      match attached with
      | Except.error err => Except.error (errdefs.InvalidParameter err)
      | Except.ok ref => Except.ok ref
    else Except.ok ref

/-- The options `PullImage` passes to the transfer engine for the reference
`ref`. -/
def pullImageOpts {β : Type} (i : ImageService β) (platform : Option Platform)
    (authConfig : Option AuthConfig) (ref : Named) : List RemoteOpt :=
  let opts : List RemoteOpt := []
  let opts :=
    match platform with
    | some p => opts ++ [RemoteOpt.WithPlatform (i.platformsFormat p)]
    | none => opts
  let resolver := (i.newResolverFromAuthConfig authConfig).1
  let opts := opts ++ [RemoteOpt.WithResolver resolver]
  let opts := opts ++ [RemoteOpt.WithImageHandler pullImageHandler]
  applySnapshotterOpts i opts ref

/-- Method `ImageService.PullImage`: the calls it makes to its collaborators, in
order, and the error it returns.  The tracker `jobs` starts as `newJobs` and is
reached through the handler only.  The deferred `finishProgress()` runs after
the `return` statement has taken the result of `Pull`. -/
def PullImage {β : Type} (i : ImageService β) (image tagOrDigest : String)
    (platform : Option Platform) (authConfig : Option AuthConfig) :
    List Event × Option GoError :=
  let opts : List RemoteOpt := []
  let opts :=
    match platform with
    | some p => opts ++ [RemoteOpt.WithPlatform (i.platformsFormat p)]
    | none => opts
  match reference.ParseNormalizedNamed image with
  | Except.error err => ([], some (errdefs.InvalidParameter err))
  | Except.ok ref =>
    let attached : Except GoError Named :=
      if tagOrDigest ≠ "" then
        match digest.Parse tagOrDigest with
        | Except.ok dgst => reference.WithDigest (reference.TrimNamed ref) dgst
        | Except.error _ => reference.WithTag ref tagOrDigest
      else Except.ok ref
    match attached with
    | Except.error err => ([], some (errdefs.InvalidParameter err))
    | Except.ok ref =>
      let resolver := (i.newResolverFromAuthConfig authConfig).1
      let opts := opts ++ [RemoteOpt.WithResolver resolver]
      let h := pullImageHandler
      let opts := opts ++ [RemoteOpt.WithImageHandler h]
      let opts := applySnapshotterOpts i opts ref
      let trace := [Event.showProgress]
      let err := i.clientPull ref.String opts
      let trace := trace ++ [Event.pullCalled ref.String opts, Event.pullReturned err]
      (trace ++ [Event.finishProgress], err)

/-- The trace and result of `PullImage` once the reference `ref` is resolved. -/
def pullImageRun {β : Type} (i : ImageService β) (platform : Option Platform)
    (authConfig : Option AuthConfig) (ref : Named) : List Event × Option GoError :=
  ([Event.showProgress,
    Event.pullCalled ref.String (pullImageOpts i platform authConfig ref),
    Event.pullReturned (i.clientPull ref.String (pullImageOpts i platform authConfig ref)),
    Event.finishProgress],
   i.clientPull ref.String (pullImageOpts i platform authConfig ref))

/-- A service for concrete runs: the `overlayfs` snapshotter, a resolver
constructor with nothing to report, a transfer engine that succeeds. -/
def sampleService : ImageService Unit :=
  { snapshotter := "overlayfs"
    newResolverFromAuthConfig := fun _ => ({ ident := 0 }, ())
    clientPull := fun _ _ => none
    platformsFormat := fun p => p.OS ++ "/" ++ p.Architecture }

/-- A service whose transfer engine fails. -/
def failingPullService : ImageService Unit :=
  { snapshotter := "overlayfs"
    newResolverFromAuthConfig := fun _ => ({ ident := 0 }, ())
    clientPull := fun _ _ => some (GoError.sentinel "connection refused")
    platformsFormat := fun p => p.OS ++ "/" ++ p.Architecture }

/-- Descriptors of a pull that discovers three layers, a schema-2 manifest and
a legacy schema-1 manifest, with distinct digests. -/
def sampleDescriptors : List Descriptor :=
  [ { MediaType := images.MediaTypeDockerSchema2Manifest, Digest := ⟨"sha256:m2"⟩, Size := 1200 },
    { MediaType := images.MediaTypeDockerSchema2LayerGzip, Digest := ⟨"sha256:l1"⟩, Size := 4096 },
    { MediaType := images.MediaTypeDockerSchema1Manifest, Digest := ⟨"sha256:m1"⟩, Size := 900 },
    { MediaType := images.MediaTypeDockerSchema2LayerGzip, Digest := ⟨"sha256:l2"⟩, Size := 8192 },
    { MediaType := images.MediaTypeDockerSchema2LayerGzip, Digest := ⟨"sha256:l3"⟩, Size := 512 } ]

/-- A digest text used in concrete runs. -/
def sampleDigest : String :=
  "sha256:0123456789abcdef0123456789abcdef0123456789abcdef0123456789abcdef"

/-! ## Shared lemmas -/

theorem PullImage_of_ref_error {β : Type} (i : ImageService β) (image tagOrDigest : String)
    (platform : Option Platform) (authConfig : Option AuthConfig) (err : GoError)
    (h : pullImageRef image tagOrDigest = Except.error err) :
    PullImage i image tagOrDigest platform authConfig = ([], some err) := by
  unfold pullImageRef at h
  unfold PullImage
  cases hp : reference.ParseNormalizedNamed image with
  | error e =>
    rw [hp] at h
    simp only at h
    cases h
    rfl
  | ok ref =>
    rw [hp] at h
    simp only at h ⊢
    by_cases ht : tagOrDigest = ""
    · simp [ht] at h
    · simp only [ne_eq, ht, not_false_eq_true, if_true] at h ⊢
      cases ha : (match digest.Parse tagOrDigest with
        | Except.ok dgst => reference.WithDigest (reference.TrimNamed ref) dgst
        | Except.error _ => reference.WithTag ref tagOrDigest) with
      | error e =>
        rw [ha] at h
        simp only at h
        cases h
        rfl
      | ok r =>
        rw [ha] at h
        simp at h

theorem PullImage_of_ref_ok {β : Type} (i : ImageService β) (image tagOrDigest : String)
    (platform : Option Platform) (authConfig : Option AuthConfig) (ref : Named)
    (h : pullImageRef image tagOrDigest = Except.ok ref) :
    PullImage i image tagOrDigest platform authConfig
      = pullImageRun i platform authConfig ref := by
  unfold pullImageRef at h
  unfold PullImage pullImageRun pullImageOpts
  cases hp : reference.ParseNormalizedNamed image with
  | error e =>
    rw [hp] at h
    simp at h
  | ok n =>
    rw [hp] at h
    simp only at h ⊢
    by_cases ht : tagOrDigest = ""
    · simp only [ht, ne_eq, not_true_eq_false, if_false] at h ⊢
      cases h
      cases platform <;> rfl
    · simp only [ne_eq, ht, not_false_eq_true, if_true] at h ⊢
      cases ha : (match digest.Parse tagOrDigest with
        | Except.ok dgst => reference.WithDigest (reference.TrimNamed n) dgst
        | Except.error _ => reference.WithTag n tagOrDigest) with
      | error e =>
        rw [ha] at h
        simp at h
      | ok r =>
        rw [ha] at h
        simp only at h
        cases h
        cases platform <;> rfl

theorem isLowerHex_val_le (c : Char) (h : isLowerHex c = true) : c.val.toNat ≤ 102 := by
  simp only [isLowerHex, isDigit, Bool.or_eq_true, Bool.and_eq_true, decide_eq_true_eq] at h
  rcases h with ⟨_, h2⟩ | ⟨_, h2⟩
  · have := (Char.le_def).1 h2
    have h3 : c.val.toNat ≤ ('f' : Char).val.toNat := UInt32.le_def.1 this
    exact h3
  · have := (Char.le_def).1 h2
    have h3 : c.val.toNat ≤ ('9' : Char).val.toNat := UInt32.le_def.1 this
    exact le_trans h3 (by decide)

theorem isLowerHex_utf8Size (c : Char) (h : isLowerHex c = true) : c.utf8Size = 1 := by
  have hv := isLowerHex_val_le c h
  unfold Char.utf8Size
  have : c.val ≤ UInt32.ofNatCore 127 (by decide) := by
    apply UInt32.le_def.2
    show c.val.toNat ≤ 127
    omega
  dsimp only
  rw [if_pos this]

theorem byteLen_of_lowerHex (e : List Char) (h : e.all isLowerHex = true) :
    byteLen e = e.length := by
  induction e with
  | nil => rfl
  | cons c cs ih =>
    simp only [List.all_cons, Bool.and_eq_true] at h
    have hc := isLowerHex_utf8Size c h.1
    have hcs := ih h.2
    unfold byteLen at hcs ⊢
    simp only [List.foldr_cons, List.length_cons, hc, hcs]
    omega

theorem all_isXDigit_of_lowerHex (e : List Char) (h : e.all isLowerHex = true) :
    e.all isXDigit = true := by
  rw [List.all_eq_true] at h ⊢
  intro c hc
  simp [isXDigit, h c hc]

theorem algorithmSize_some (a : List Char) (size : Nat)
    (h : digest.algorithmSize a = some size) :
    reference.matchDigestAlgorithm false a = true ∧ 32 ≤ size := by
  unfold digest.algorithmSize at h
  split_ifs at h with h1 h2 h3
  · subst h1
    cases h
    exact ⟨by decide, by decide⟩
  · subst h2
    cases h
    exact ⟨by decide, by decide⟩
  · subst h3
    cases h
    exact ⟨by decide, by decide⟩

/-- A text `digest.Parse` accepts is returned as the digest, is not empty, and
matches the digest expression of the reference grammar. -/
theorem digest_Parse_ok (t : String) (d : Digest) (h : digest.Parse t = Except.ok d) :
    d = ⟨t⟩ ∧ t ≠ "" ∧ reference.matchDigest t.data = true := by
  unfold digest.Parse at h
  cases hv : digest.Validate t.data with
  | some err =>
    rw [hv] at h
    simp at h
  | none =>
    rw [hv] at h
    simp only [Except.ok.injEq] at h
    refine ⟨h.symm, ?_, ?_⟩
    · intro ht
      rw [ht] at hv
      revert hv
      decide
    · unfold digest.Validate at hv
      unfold reference.matchDigest
      cases hs : splitFirst ':' t.data with
      | none =>
        rw [hs] at hv
        simp at hv
      | some p =>
        obtain ⟨a, e⟩ := p
        rw [hs] at hv
        simp only at hv ⊢
        by_cases h1 : (a.isEmpty || e.isEmpty) = true
        · rw [if_pos h1] at hv
          simp at hv
        · rw [if_neg h1] at hv
          cases ha : digest.algorithmSize a with
          | none =>
            rw [ha] at hv
            simp only at hv
            by_cases hm : (!digest.matchDigestRegexp t.data) = true
            · rw [if_pos hm] at hv
              simp at hv
            · rw [if_neg hm] at hv
              simp at hv
          | some size =>
            rw [ha] at hv
            simp only at hv
            by_cases h2 : size * 2 ≠ byteLen e
            · rw [if_pos h2] at hv
              simp at hv
            · rw [if_neg h2] at hv
              by_cases h3 : e.all isLowerHex = true
              · have hal := algorithmSize_some a size ha
                have hlen := byteLen_of_lowerHex e h3
                have hx := all_isXDigit_of_lowerHex e h3
                simp only [ne_eq, not_not] at h2
                have h32 : 32 ≤ e.length := by omega
                simp [hal.1, hx, h32]
              · rw [if_neg h3] at hv
                simp at hv

theorem pullImageRef_digest (image tagOrDigest : String) (n : Named) (d : Digest)
    (hn : reference.ParseNormalizedNamed image = Except.ok n)
    (hd : digest.Parse tagOrDigest = Except.ok d) :
    pullImageRef image tagOrDigest
      = Except.ok { domain := n.domain, path := n.path, tag := none, digest := some d } := by
  obtain ⟨hval, hne, hm⟩ := digest_Parse_ok tagOrDigest d hd
  unfold pullImageRef
  rw [hn]
  simp only [ne_eq, hne, not_false_eq_true, if_true, hd]
  subst hval
  simp [reference.WithDigest, reference.TrimNamed, hm]

theorem matchTag_ne_empty (t : String) (h : reference.matchTag t.data = true) : t ≠ "" := by
  intro ht
  rw [ht] at h
  revert h
  decide

theorem pullImageRef_tag (image tagOrDigest : String) (n : Named) (e : GoError)
    (hn : reference.ParseNormalizedNamed image = Except.ok n)
    (hd : digest.Parse tagOrDigest = Except.error e)
    (ht : reference.matchTag tagOrDigest.data = true) :
    pullImageRef image tagOrDigest
      = Except.ok { domain := n.domain, path := n.path, tag := some tagOrDigest,
                    digest := n.digest } := by
  have hne := matchTag_ne_empty tagOrDigest ht
  unfold pullImageRef
  rw [hn]
  simp only [ne_eq, hne, not_false_eq_true, if_true, hd]
  simp [reference.WithTag, ht]

theorem pullImageRef_empty (image : String) (n : Named)
    (hn : reference.ParseNormalizedNamed image = Except.ok n) :
    pullImageRef image "" = Except.ok n := by
  unfold pullImageRef
  rw [hn]
  simp

/-- The options `applySnapshotterOpts` appends after the unpack and snapshotter
options: one handler wrapper for `stargz` and for `nydus`, nothing otherwise. -/
theorem applySnapshotterOpts_eq {β : Type} (i : ImageService β) (opts : List RemoteOpt)
    (ref : Named) :
    applySnapshotterOpts i opts ref
      = opts ++ [RemoteOpt.WithPullUnpack, RemoteOpt.WithPullSnapshotter i.snapshotter]
          ++ (if i.snapshotter = "stargz" then
                [RemoteOpt.WithImageHandlerWrapper
                  (HandlerWrapper.stargzAppendDefaultLabels ref.String 10485760)]
              else if i.snapshotter = "nydus" then
                [RemoteOpt.WithImageHandlerWrapper
                  (HandlerWrapper.nydusAppendLabels ref.String)]
              else []) := by
  unfold applySnapshotterOpts
  by_cases h1 : i.snapshotter = "stargz"
  · simp [h1]
  · by_cases h2 : i.snapshotter = "nydus"
    · simp [h2]
    · simp [h1, h2]

theorem withResolver_mem_pullImageOpts {β : Type} (i : ImageService β)
    (platform : Option Platform) (authConfig : Option AuthConfig) (ref : Named) :
    RemoteOpt.WithResolver (i.newResolverFromAuthConfig authConfig).1
      ∈ pullImageOpts i platform authConfig ref := by
  unfold pullImageOpts
  rw [applySnapshotterOpts_eq]
  cases platform <;> simp

theorem withImageHandler_mem_pullImageOpts {β : Type} (i : ImageService β)
    (platform : Option Platform) (authConfig : Option AuthConfig) (ref : Named) :
    RemoteOpt.WithImageHandler pullImageHandler ∈ pullImageOpts i platform authConfig ref := by
  unfold pullImageOpts
  rw [applySnapshotterOpts_eq]
  cases platform <;> simp

theorem any_digest_iff (j : jobs) (d : Descriptor) :
    j.descs.any (fun job => job.desc.Digest = d.Digest) = true ↔ d.Digest ∈ trackedDigests j := by
  simp only [List.any_eq_true, decide_eq_true_eq, trackedDigests, List.mem_map]

theorem trackedDigests_Add (j : jobs) (d : Descriptor) :
    trackedDigests (j.Add d)
      = if d.Digest ∈ trackedDigests j then trackedDigests j
        else trackedDigests j ++ [d.Digest] := by
  unfold jobs.Add
  by_cases h : j.descs.any (fun job => job.desc.Digest = d.Digest) = true
  · rw [if_pos h, if_pos ((any_digest_iff j d).1 h)]
    unfold trackedDigests
    simp only [List.map_map]
    apply List.map_congr_left
    intro job _
    simp only [Function.comp]
    split_ifs <;> rfl
  · rw [if_neg h, if_neg (fun hm => h ((any_digest_iff j d).2 hm))]
    simp [trackedDigests]

theorem trackedDigests_handler (j : jobs) (d : Descriptor) :
    trackedDigests (pullImageHandler j d).1
      = if notLegacy d = true ∧ d.Digest ∉ trackedDigests j then trackedDigests j ++ [d.Digest]
        else trackedDigests j := by
  unfold pullImageHandler notLegacy
  by_cases hm : d.MediaType ≠ images.MediaTypeDockerSchema1Manifest
  · have hne : ¬ d.MediaType = images.MediaTypeDockerSchema1Manifest := hm
    simp only [ne_eq, hne, not_false_eq_true, if_true, trackedDigests_Add, decide_True,
      true_and]
    by_cases hd : d.Digest ∈ trackedDigests j <;> simp [hd]
  · simp [hm]

theorem trackedDigests_handleAll (ds : List Descriptor) :
    ∀ j : jobs, (trackedDigests j).Nodup →
      (trackedDigests (handleAll pullImageHandler j ds)).Nodup ∧
      (trackedDigests (handleAll pullImageHandler j ds)).toFinset
        = (trackedDigests j).toFinset
            ∪ ((ds.filter notLegacy).map (fun d => d.Digest)).toFinset := by
  induction ds with
  | nil =>
    intro j hj
    simp [handleAll, hj]
  | cons d ds ih =>
    intro j hj
    have hstep : handleAll pullImageHandler j (d :: ds)
        = handleAll pullImageHandler (pullImageHandler j d).1 ds := rfl
    rw [hstep]
    have hd := trackedDigests_handler j d
    by_cases hc : notLegacy d = true ∧ d.Digest ∉ trackedDigests j
    · rw [if_pos hc] at hd
      have hnodup : (trackedDigests (pullImageHandler j d).1).Nodup := by
        rw [hd]
        exact List.Nodup.append hj (List.nodup_singleton _)
          (by
            intro x hx hx2
            rw [List.mem_singleton] at hx2
            subst hx2
            exact hc.2 hx)
      obtain ⟨h1, h2⟩ := ih _ hnodup
      refine ⟨h1, ?_⟩
      rw [h2, hd]
      ext x
      simp [List.filter_cons, hc.1]
      tauto
    · rw [if_neg hc] at hd
      have hnodup : (trackedDigests (pullImageHandler j d).1).Nodup := by
        rw [hd]
        exact hj
      obtain ⟨h1, h2⟩ := ih _ hnodup
      refine ⟨h1, ?_⟩
      rw [h2, hd]
      ext x
      by_cases hl : notLegacy d = true
      · have hmem : d.Digest ∈ trackedDigests j := by
          by_contra hcon
          exact hc ⟨hl, hcon⟩
        simp only [List.filter_cons, hl, if_true, List.map_cons, List.toFinset_cons,
          Finset.mem_union, List.mem_toFinset, Finset.mem_insert]
        constructor
        · rintro (h | h)
          · exact Or.inl h
          · exact Or.inr (Or.inr h)
        · rintro (h | h | h)
          · exact Or.inl h
          · subst h
            exact Or.inl hmem
          · exact Or.inr h
      · simp [List.filter_cons, hl]

theorem snapshot_length_handleAll (ds : List Descriptor) :
    (handleAll pullImageHandler newJobs ds).Snapshot.length
      = ((ds.filter notLegacy).map (fun d => d.Digest)).dedup.length := by
  obtain ⟨h1, h2⟩ := trackedDigests_handleAll ds newJobs (by simp [trackedDigests, newJobs])
  have hlen : (handleAll pullImageHandler newJobs ds).Snapshot.length
      = (trackedDigests (handleAll pullImageHandler newJobs ds)).length := by
    simp [jobs.Snapshot, trackedDigests]
  rw [hlen, ← List.toFinset_card_of_nodup h1, h2, ← List.card_toFinset]
  simp [trackedDigests, newJobs]

theorem handleAll_notLegacy (ds : List Descriptor) :
    ∀ j : jobs, (∀ job ∈ j.descs, notLegacy job.desc = true) →
      ∀ job ∈ (handleAll pullImageHandler j ds).descs, notLegacy job.desc = true := by
  induction ds with
  | nil =>
    intro j hj
    exact hj
  | cons d ds ih =>
    intro j hj
    have hstep : handleAll pullImageHandler j (d :: ds)
        = handleAll pullImageHandler (pullImageHandler j d).1 ds := rfl
    rw [hstep]
    apply ih
    unfold pullImageHandler
    by_cases hm : d.MediaType ≠ images.MediaTypeDockerSchema1Manifest
    · simp only [hm, if_true]
      unfold jobs.Add
      split_ifs with hany
      · intro job hjob
        simp only [List.mem_map] at hjob
        obtain ⟨old, hold, heq⟩ := hjob
        have hold2 := hj old hold
        split_ifs at heq
        · subst heq
          exact hold2
        · subst heq
          exact hold2
      · intro job hjob
        simp only [List.mem_append, List.mem_singleton] at hjob
        rcases hjob with h | h
        · exact hj job h
        · subst h
          simp [notLegacy, hm]
    · simp only [hm, if_false]
      exact hj

/-! ## Claims -/

/-- C1: for every image name that `reference.ParseNormalizedNamed` accepts, with
or without a tag or digest of its own, and every `tagOrDigest` that
`digest.Parse` accepts as the digest `d`, the reference `PullImage` resolves has
the domain and path of the normalized name, no tag, and exactly the digest `d`
(whose text is `tagOrDigest`); `PullImage` starts the reporter, passes the
string form of that reference to the transfer engine, and stops the reporter. -/
theorem C1_digest_attached_without_tag {β : Type} (i : ImageService β)
    (image tagOrDigest : String) (platform : Option Platform)
    (authConfig : Option AuthConfig) (n : Named) (d : Digest)
    (hn : reference.ParseNormalizedNamed image = Except.ok n)
    (hd : digest.Parse tagOrDigest = Except.ok d) :
    ∃ ref : Named,
      pullImageRef image tagOrDigest = Except.ok ref ∧
      ref.digest = some d ∧ d.val = tagOrDigest ∧ ref.tag = none ∧
      ref.domain = n.domain ∧ ref.path = n.path ∧ ref.Name = n.Name ∧
      ∃ opts,
        (PullImage i image tagOrDigest platform authConfig).1
          = [Event.showProgress, Event.pullCalled ref.String opts,
             Event.pullReturned (i.clientPull ref.String opts), Event.finishProgress] := by
  have href := pullImageRef_digest image tagOrDigest n d hn hd
  refine ⟨_, href, rfl, ?_, rfl, rfl, rfl, rfl, ?_⟩
  · rw [(digest_Parse_ok tagOrDigest d hd).1]
  · rw [PullImage_of_ref_ok i image tagOrDigest platform authConfig _ href]
    exact ⟨_, rfl⟩

/-- Witness for C1: pulling `ubuntu:22.04` by a digest drops the tag `22.04`. -/
theorem C1_digest_attached_without_tag_witness :
    ∃ ref : Named,
      pullImageRef "ubuntu:22.04" sampleDigest = Except.ok ref ∧
      ref.digest = some ⟨sampleDigest⟩ ∧ (⟨sampleDigest⟩ : Digest).val = sampleDigest ∧
      ref.tag = none ∧
      ref.domain = "docker.io" ∧ ref.path = "library/ubuntu" ∧
      ref.Name = "docker.io/library/ubuntu" ∧
      ∃ opts,
        (PullImage sampleService "ubuntu:22.04" sampleDigest none none).1
          = [Event.showProgress, Event.pullCalled ref.String opts,
             Event.pullReturned (sampleService.clientPull ref.String opts),
             Event.finishProgress] :=
  C1_digest_attached_without_tag sampleService "ubuntu:22.04" sampleDigest none none
    { domain := "docker.io", path := "library/ubuntu", tag := some "22.04", digest := none }
    ⟨sampleDigest⟩ (by decide) (by decide)

/-- C2, as amended: for every image name that `reference.ParseNormalizedNamed`
accepts and every `tagOrDigest` that `digest.Parse` rejects and that matches the
tag expression `[\w][\w.-]{0,127}`, the reference `PullImage` resolves has the
domain and path of the normalized name and exactly the tag `tagOrDigest`, and
its string form is what the transfer engine is called with; in particular
`myrepo/app` with `v1.2` resolves to `docker.io/myrepo/app:v1.2`. -/
theorem C2_valid_tag_attached {β : Type} (i : ImageService β)
    (image tagOrDigest : String) (platform : Option Platform)
    (authConfig : Option AuthConfig) (n : Named) (e : GoError)
    (hn : reference.ParseNormalizedNamed image = Except.ok n)
    (hd : digest.Parse tagOrDigest = Except.error e)
    (ht : reference.matchTag tagOrDigest.data = true) :
    (∃ ref : Named,
      pullImageRef image tagOrDigest = Except.ok ref ∧
      ref.tag = some tagOrDigest ∧ ref.domain = n.domain ∧ ref.path = n.path ∧
      ref.digest = n.digest ∧
      ∃ opts,
        (PullImage i image tagOrDigest platform authConfig).1
          = [Event.showProgress, Event.pullCalled ref.String opts,
             Event.pullReturned (i.clientPull ref.String opts), Event.finishProgress]) ∧
    (pullImageRef "myrepo/app" "v1.2").map Named.String
      = Except.ok "docker.io/myrepo/app:v1.2" := by
  have href := pullImageRef_tag image tagOrDigest n e hn hd ht
  refine ⟨⟨_, href, rfl, rfl, rfl, rfl, ?_⟩, by decide⟩
  rw [PullImage_of_ref_ok i image tagOrDigest platform authConfig _ href]
  exact ⟨_, rfl⟩

/-- Witness for C2: `myrepo/app` with the tag `v1.2`. -/
theorem C2_valid_tag_attached_witness :
    ∃ opts,
      (PullImage sampleService "myrepo/app" "v1.2" none none).1
        = [Event.showProgress, Event.pullCalled "docker.io/myrepo/app:v1.2" opts,
           Event.pullReturned none, Event.finishProgress] := by
  obtain ⟨⟨ref, href, _, _, _, _, opts, hrun⟩, _⟩ :=
    C2_valid_tag_attached sampleService "myrepo/app" "v1.2" none none
      { domain := "docker.io", path := "myrepo/app", tag := none, digest := none }
      digest.ErrDigestInvalidFormat (by decide) (by decide) (by decide)
  have hr : ref = { domain := "docker.io", path := "myrepo/app", tag := some "v1.2",
                    digest := none } := by
    have h2 : pullImageRef "myrepo/app" "v1.2"
        = Except.ok { domain := "docker.io", path := "myrepo/app", tag := some "v1.2",
                      digest := none } := by decide
    rw [h2] at href
    exact (Except.ok.inj href).symm
  subst hr
  exact ⟨opts, hrun⟩

/-- Counterexample to C2 as stated: `myrepo/app` is a valid name and `latest!` is
not empty and not a digest, yet no reference carrying the tag `latest!` is
resolved: the resolution fails with an invalid-parameter error around
`ErrTagInvalidFormat`, and nothing is started. -/
theorem C2_counterexample_invalid_tag :
    reference.ParseNormalizedNamed "myrepo/app"
      = Except.ok { domain := "docker.io", path := "myrepo/app", tag := none, digest := none } ∧
    "latest!" ≠ "" ∧
    digest.Parse "latest!" = Except.error digest.ErrDigestInvalidFormat ∧
    pullImageRef "myrepo/app" "latest!"
      = Except.error (errdefs.InvalidParameter reference.ErrTagInvalidFormat) ∧
    (PullImage sampleService "myrepo/app" "latest!" none none).1.length = 0 := by
  refine ⟨by decide, by decide, by decide, by decide, ?_⟩
  rw [PullImage_of_ref_error sampleService "myrepo/app" "latest!" none none
    (errdefs.InvalidParameter reference.ErrTagInvalidFormat) (by decide)]
  rfl

/-- C3: for every image name that `reference.ParseNormalizedNamed` accepts and
an empty `tagOrDigest`, the reference `PullImage` resolves is the normalized
name itself: nothing is attached to it, so it has a tag or a digest only when
the name was written with one, and its string form is what the transfer engine
is called with; in particular `library/ubuntu` resolves to
`docker.io/library/ubuntu`, a reference without tag and digest. -/
theorem C3_empty_tagOrDigest_keeps_name {β : Type} (i : ImageService β)
    (image : String) (platform : Option Platform) (authConfig : Option AuthConfig)
    (n : Named) (hn : reference.ParseNormalizedNamed image = Except.ok n) :
    (pullImageRef image "" = Except.ok n ∧
     ∃ opts,
       (PullImage i image "" platform authConfig).1
         = [Event.showProgress, Event.pullCalled n.String opts,
            Event.pullReturned (i.clientPull n.String opts), Event.finishProgress]) ∧
    pullImageRef "library/ubuntu" ""
      = Except.ok { domain := "docker.io", path := "library/ubuntu", tag := none,
                    digest := none } ∧
    (pullImageRef "library/ubuntu" "").map Named.String
      = Except.ok "docker.io/library/ubuntu" := by
  have href := pullImageRef_empty image n hn
  refine ⟨⟨href, ?_⟩, by decide, by decide⟩
  rw [PullImage_of_ref_ok i image "" platform authConfig _ href]
  exact ⟨_, rfl⟩

/-- Witness for C3: `library/ubuntu` with an empty `tagOrDigest`. -/
theorem C3_empty_tagOrDigest_keeps_name_witness :
    ∃ opts,
      (PullImage sampleService "library/ubuntu" "" none none).1
        = [Event.showProgress, Event.pullCalled "docker.io/library/ubuntu" opts,
           Event.pullReturned none, Event.finishProgress] :=
  (C3_empty_tagOrDigest_keeps_name sampleService "library/ubuntu" none none
    { domain := "docker.io", path := "library/ubuntu", tag := none, digest := none }
    (by decide)).1.2

/-- C4, as amended: when the resolution succeeds, the resolved reference carries
both a tag and a digest exactly when the image name was written with a digest
and `tagOrDigest` is either empty, with the name also written with a tag, or
not empty and not a digest (so a tag); on every other input it does not carry
both. -/
theorem C4_both_iff_name_digest_kept (image tagOrDigest : String) (n ref : Named)
    (hn : reference.ParseNormalizedNamed image = Except.ok n)
    (href : pullImageRef image tagOrDigest = Except.ok ref) :
    (ref.tag ≠ none ∧ ref.digest ≠ none) ↔
      (n.digest ≠ none ∧
        ((tagOrDigest = "" ∧ n.tag ≠ none) ∨
         (tagOrDigest ≠ "" ∧ ∃ e, digest.Parse tagOrDigest = Except.error e))) := by
  cases hparse : digest.Parse tagOrDigest with
  | ok d =>
    have hne := (digest_Parse_ok tagOrDigest d hparse).2.1
    rw [pullImageRef_digest image tagOrDigest n d hn hparse] at href
    cases href
    constructor
    · rintro ⟨h, _⟩
      exact absurd rfl h
    · rintro ⟨_, ⟨h, _⟩ | ⟨_, e, he⟩⟩
      · exact absurd h hne
      · cases he
  | error e =>
    by_cases hempty : tagOrDigest = ""
    · subst hempty
      rw [pullImageRef_empty image n hn] at href
      cases href
      constructor
      · rintro ⟨h1, h2⟩
        exact ⟨h2, Or.inl ⟨rfl, h1⟩⟩
      · rintro ⟨h2, ⟨_, h1⟩ | ⟨h, _⟩⟩
        · exact ⟨h1, h2⟩
        · exact absurd rfl h
    · by_cases ht : reference.matchTag tagOrDigest.data = true
      · rw [pullImageRef_tag image tagOrDigest n e hn hparse ht] at href
        cases href
        constructor
        · rintro ⟨_, h2⟩
          exact ⟨h2, Or.inr ⟨hempty, e, rfl⟩⟩
        · rintro ⟨h2, _⟩
          exact ⟨by simp, h2⟩
      · unfold pullImageRef at href
        rw [hn] at href
        simp only [ne_eq, hempty, not_false_eq_true, if_true, hparse] at href
        simp [reference.WithTag, ht] at href

/-- Witness for C4: a name written with a digest and pulled with an empty
`tagOrDigest` resolves to a reference with that digest and no tag, so it does
not carry both. -/
theorem C4_both_iff_name_digest_kept_witness :
    pullImageRef ("ubuntu@" ++ sampleDigest) ""
      = Except.ok { domain := "docker.io", path := "library/ubuntu", tag := none,
                    digest := some ⟨sampleDigest⟩ } ∧
    ¬ ((none : Option String) ≠ none ∧ (some ⟨sampleDigest⟩ : Option Digest) ≠ none) :=
  ⟨by decide,
   fun hboth =>
    (((C4_both_iff_name_digest_kept ("ubuntu@" ++ sampleDigest) ""
      { domain := "docker.io", path := "library/ubuntu", tag := none,
        digest := some ⟨sampleDigest⟩ }
      { domain := "docker.io", path := "library/ubuntu", tag := none,
        digest := some ⟨sampleDigest⟩ }
      (by decide) (by decide)).1 hboth).2.elim
        (fun h => h.2 rfl) (fun h => h.1 rfl))⟩

/-- Counterexample to C4 as stated: a name written with a digest, pulled by the
tag `v1`, resolves to a reference that carries both the tag and the digest, and
so does a name written with both when `tagOrDigest` is empty. -/
theorem C4_counterexample_tag_and_digest :
    pullImageRef ("ubuntu@" ++ sampleDigest) "v1"
      = Except.ok { domain := "docker.io", path := "library/ubuntu", tag := some "v1",
                    digest := some ⟨sampleDigest⟩ } ∧
    pullImageRef ("ubuntu:v1@" ++ sampleDigest) ""
      = Except.ok { domain := "docker.io", path := "library/ubuntu", tag := some "v1",
                    digest := some ⟨sampleDigest⟩ } ∧
    (pullImageRef ("ubuntu@" ++ sampleDigest) "v1").map Named.String
      = Except.ok ("docker.io/library/ubuntu:v1@" ++ sampleDigest) := by
  decide

/-- C5: when the image name fails to parse, or `tagOrDigest` is not empty, is
rejected by `digest.Parse` and does not match the tag expression, `PullImage`
returns an invalid-parameter error that wraps the cause (the error of
`reference.ParseNormalizedNamed`, or that of `reference.WithTag`), and its trace
is empty: the reporter is not started, so nothing reaches the output sink, and
the transfer engine is not called. -/
theorem C5_validation_error_starts_nothing {β : Type} (i : ImageService β)
    (image tagOrDigest : String) (platform : Option Platform)
    (authConfig : Option AuthConfig)
    (h : (∃ e, reference.ParseNormalizedNamed image = Except.error e) ∨
         (tagOrDigest ≠ "" ∧ (∃ e, digest.Parse tagOrDigest = Except.error e) ∧
          reference.matchTag tagOrDigest.data = false)) :
    ∃ cause,
      PullImage i image tagOrDigest platform authConfig
        = ([], some (errdefs.InvalidParameter cause)) ∧
      errdefs.IsInvalidParameter (errdefs.InvalidParameter cause) = true ∧
      (reference.ParseNormalizedNamed image = Except.error cause ∨
       ∃ n, reference.ParseNormalizedNamed image = Except.ok n ∧
         reference.WithTag n tagOrDigest = Except.error cause) := by
  cases hp : reference.ParseNormalizedNamed image with
  | error cause =>
    refine ⟨cause, ?_, rfl, Or.inl rfl⟩
    apply PullImage_of_ref_error
    unfold pullImageRef
    rw [hp]
  | ok n =>
    rcases h with ⟨e, he⟩ | ⟨hne, ⟨e, he⟩, ht⟩
    · rw [hp] at he
      cases he
    · have hw : reference.WithTag n tagOrDigest
          = Except.error reference.ErrTagInvalidFormat := by
        simp [reference.WithTag, ht]
      refine ⟨reference.ErrTagInvalidFormat, ?_, rfl, Or.inr ⟨n, rfl, hw⟩⟩
      apply PullImage_of_ref_error
      unfold pullImageRef
      rw [hp]
      simp only [ne_eq, hne, not_false_eq_true, if_true, he, hw]

/-- Witness for C5: the name `Ubuntu` does not parse, and `latest!` can be
attached to `ubuntu` neither as a digest nor as a tag. -/
theorem C5_validation_error_starts_nothing_witness :
    (∃ cause, PullImage sampleService "Ubuntu" "" none none
        = ([], some (errdefs.InvalidParameter cause)) ∧
      errdefs.IsInvalidParameter (errdefs.InvalidParameter cause) = true ∧
      (reference.ParseNormalizedNamed "Ubuntu" = Except.error cause ∨
       ∃ n, reference.ParseNormalizedNamed "Ubuntu" = Except.ok n ∧
         reference.WithTag n "" = Except.error cause)) ∧
    (∃ cause, PullImage sampleService "ubuntu" "latest!" none none
        = ([], some (errdefs.InvalidParameter cause)) ∧
      errdefs.IsInvalidParameter (errdefs.InvalidParameter cause) = true ∧
      (reference.ParseNormalizedNamed "ubuntu" = Except.error cause ∨
       ∃ n, reference.ParseNormalizedNamed "ubuntu" = Except.ok n ∧
         reference.WithTag n "latest!" = Except.error cause)) :=
  ⟨C5_validation_error_starts_nothing sampleService "Ubuntu" "" none none
     (Or.inl ⟨reference.errRemoteNameNotLowercase, by decide⟩),
   C5_validation_error_starts_nothing sampleService "ubuntu" "latest!" none none
     (Or.inr ⟨by decide, ⟨digest.ErrDigestInvalidFormat, by decide⟩, by decide⟩)⟩

/-- C7: when the reference validation succeeds with the reference `ref`,
`PullImage` calls the transfer engine once, with the string form of `ref`, and
returns exactly the result of that call: the same error, not wrapped, when the
call fails, and no error when it succeeds. -/
theorem C7_result_is_pull_result {β : Type} (i : ImageService β)
    (image tagOrDigest : String) (platform : Option Platform)
    (authConfig : Option AuthConfig) (ref : Named)
    (href : pullImageRef image tagOrDigest = Except.ok ref) :
    ∃ opts,
      (PullImage i image tagOrDigest platform authConfig).1
        = [Event.showProgress, Event.pullCalled ref.String opts,
           Event.pullReturned (i.clientPull ref.String opts), Event.finishProgress] ∧
      (PullImage i image tagOrDigest platform authConfig).2 = i.clientPull ref.String opts ∧
      (∀ e, i.clientPull ref.String opts = some e →
        (PullImage i image tagOrDigest platform authConfig).2 = some e) ∧
      (i.clientPull ref.String opts = none →
        (PullImage i image tagOrDigest platform authConfig).2 = none) := by
  rw [PullImage_of_ref_ok i image tagOrDigest platform authConfig ref href]
  exact ⟨_, rfl, rfl, fun e he => he, fun he => he⟩

/-- Witness for C7: a transfer engine that fails with `connection refused`. -/
theorem C7_result_is_pull_result_witness :
    (PullImage failingPullService "library/ubuntu" "" none none).2
      = some (GoError.sentinel "connection refused") := by
  obtain ⟨opts, _, h2, _, _⟩ :=
    C7_result_is_pull_result failingPullService "library/ubuntu" "" none none
      { domain := "docker.io", path := "library/ubuntu", tag := none, digest := none }
      (by decide)
  rw [h2]
  rfl

/-- C8: in every run of `PullImage` that starts the progress reporter, the
trace is: reporter started, transfer engine called, transfer engine returned
with the result `PullImage` returns, reporter stopped and flushed.  So
`finishProgress` runs exactly once, after `Pull` has returned and as the last
thing before `PullImage` returns, whether `Pull` failed or not. -/
theorem C8_reporter_stopped_once_after_pull {β : Type} (i : ImageService β)
    (image tagOrDigest : String) (platform : Option Platform)
    (authConfig : Option AuthConfig)
    (hstart : (PullImage i image tagOrDigest platform authConfig).1.any Event.isShowProgress
      = true) :
    (∃ ref opts,
      (PullImage i image tagOrDigest platform authConfig).1
        = [Event.showProgress, Event.pullCalled ref opts,
           Event.pullReturned (PullImage i image tagOrDigest platform authConfig).2,
           Event.finishProgress]) ∧
    (PullImage i image tagOrDigest platform authConfig).1.countP Event.isFinishProgress = 1 := by
  cases href : pullImageRef image tagOrDigest with
  | error err =>
    rw [PullImage_of_ref_error i image tagOrDigest platform authConfig err href] at hstart
    simp at hstart
  | ok ref =>
    rw [PullImage_of_ref_ok i image tagOrDigest platform authConfig ref href]
    exact ⟨⟨_, _, rfl⟩, rfl⟩

/-- Witness for C8: a pull that succeeds and a pull whose transfer fails. -/
theorem C8_reporter_stopped_once_after_pull_witness :
    (PullImage sampleService "library/ubuntu" "" none none).1.countP Event.isFinishProgress = 1 ∧
    (PullImage failingPullService "library/ubuntu" "" none none).1.countP
      Event.isFinishProgress = 1 :=
  ⟨(C8_reporter_stopped_once_after_pull sampleService "library/ubuntu" "" none none rfl).2,
   (C8_reporter_stopped_once_after_pull failingPullService "library/ubuntu" "" none none rfl).2⟩

/-- `PullImage` keeps the first result of `newResolverFromAuthConfig` and
discards the second.  Whenever the reference validation succeeds it puts the
returned resolver among the options, calls the transfer engine and returns the
result of that call, and a service that differs only in the second result of
`newResolverFromAuthConfig` runs the same. -/
theorem PullImage_discards_second_resolver_result {β : Type} (i : ImageService β)
    (image tagOrDigest : String) (platform : Option Platform)
    (authConfig : Option AuthConfig) (ref : Named)
    (href : pullImageRef image tagOrDigest = Except.ok ref) :
    (∃ opts,
      RemoteOpt.WithResolver (i.newResolverFromAuthConfig authConfig).1 ∈ opts ∧
      PullImage i image tagOrDigest platform authConfig
        = ([Event.showProgress, Event.pullCalled ref.String opts,
            Event.pullReturned (i.clientPull ref.String opts), Event.finishProgress],
           i.clientPull ref.String opts)) ∧
    (∀ (γ : Type) (other : Option AuthConfig → γ),
      PullImage
          { snapshotter := i.snapshotter
            newResolverFromAuthConfig := fun a => ((i.newResolverFromAuthConfig a).1, other a)
            clientPull := i.clientPull
            platformsFormat := i.platformsFormat }
          image tagOrDigest platform authConfig
        = PullImage i image tagOrDigest platform authConfig) := by
  refine ⟨⟨pullImageOpts i platform authConfig ref,
    withResolver_mem_pullImageOpts i platform authConfig ref, ?_⟩, ?_⟩
  · rw [PullImage_of_ref_ok i image tagOrDigest platform authConfig ref href]
    rfl
  · intro γ other
    rfl

/-- C10: `applySnapshotterOpts` returns the incoming options unchanged, then the
unpack-after-fetch option and the snapshotter option for the configured backend,
then one handler-wrapper option for the backend `stargz` (the label wrapper for
`ref.String()` with a prefetch size of 10485760 bytes) or `nydus` (the label
wrapper for `ref.String()`), and nothing more for any other backend. -/
theorem C10_applySnapshotterOpts_shape {β : Type} (i : ImageService β)
    (opts : List RemoteOpt) (ref : Named) :
    applySnapshotterOpts i opts ref
      = opts ++ [RemoteOpt.WithPullUnpack, RemoteOpt.WithPullSnapshotter i.snapshotter]
          ++ (if i.snapshotter = "stargz" then
                [RemoteOpt.WithImageHandlerWrapper
                  (HandlerWrapper.stargzAppendDefaultLabels ref.String 10485760)]
              else if i.snapshotter = "nydus" then
                [RemoteOpt.WithImageHandlerWrapper
                  (HandlerWrapper.nydusAppendLabels ref.String)]
              else []) ∧
    (10485760 : Int) = 10 * 1024 * 1024 :=
  ⟨applySnapshotterOpts_eq i opts ref, by decide⟩

/-- C6: the handler `PullImage` installs (it is among the options the transfer
engine is called with) returns no children and no error on every descriptor,
leaves the tracker as `Add` makes it when the media type is not the legacy
schema-1 manifest type, and leaves the tracker untouched when it is.  Hence,
starting from `newJobs`, after the handler has processed any sequence of
descriptors no tracked job has the legacy media type, there are as many tracked
jobs as distinct digests among the descriptors that are not legacy, and three
layers, one manifest that is not legacy and one legacy manifest with distinct
digests, discovered in any order, leave exactly 4 tracked jobs. -/
theorem C6_handler_filters_legacy_manifest :
    (∀ (β : Type) (i : ImageService β) (image tagOrDigest : String)
        (platform : Option Platform) (authConfig : Option AuthConfig) (ref : Named),
      pullImageRef image tagOrDigest = Except.ok ref →
      ∃ opts, RemoteOpt.WithImageHandler pullImageHandler ∈ opts ∧
        (PullImage i image tagOrDigest platform authConfig).1
          = [Event.showProgress, Event.pullCalled ref.String opts,
             Event.pullReturned (i.clientPull ref.String opts), Event.finishProgress]) ∧
    (∀ (j : jobs) (d : Descriptor), (pullImageHandler j d).2 = ([], none)) ∧
    (∀ (j : jobs) (d : Descriptor),
      d.MediaType ≠ images.MediaTypeDockerSchema1Manifest →
        (pullImageHandler j d).1 = j.Add d) ∧
    (∀ (j : jobs) (d : Descriptor),
      d.MediaType = images.MediaTypeDockerSchema1Manifest →
        (pullImageHandler j d).1 = j) ∧
    (∀ (ds : List Descriptor),
      ∀ job ∈ (handleAll pullImageHandler newJobs ds).Snapshot,
        job.desc.MediaType ≠ images.MediaTypeDockerSchema1Manifest) ∧
    (∀ (ds : List Descriptor),
      (handleAll pullImageHandler newJobs ds).Snapshot.length
        = ((ds.filter (fun d => decide (d.MediaType ≠ images.MediaTypeDockerSchema1Manifest))).map
            (fun d => d.Digest)).dedup.length) ∧
    (∀ (ds : List Descriptor) (l1 l2 l3 m g : Descriptor),
      ds.Perm [l1, l2, l3, m, g] →
      l1.MediaType ≠ images.MediaTypeDockerSchema1Manifest →
      l2.MediaType ≠ images.MediaTypeDockerSchema1Manifest →
      l3.MediaType ≠ images.MediaTypeDockerSchema1Manifest →
      m.MediaType ≠ images.MediaTypeDockerSchema1Manifest →
      g.MediaType = images.MediaTypeDockerSchema1Manifest →
      (ds.map (fun d => d.Digest)).Nodup →
      (handleAll pullImageHandler newJobs ds).Snapshot.length = 4) := by
  refine ⟨?_, ?_, ?_, ?_, ?_, ?_, ?_⟩
  · intro β i image tagOrDigest platform authConfig ref href
    refine ⟨pullImageOpts i platform authConfig ref,
      withImageHandler_mem_pullImageOpts i platform authConfig ref, ?_⟩
    rw [PullImage_of_ref_ok i image tagOrDigest platform authConfig ref href]
    rfl
  · intro j d
    rfl
  · intro j d hd
    unfold pullImageHandler
    simp only [ne_eq, hd, not_false_eq_true, if_true]
  · intro j d hd
    unfold pullImageHandler
    simp only [ne_eq, hd, not_true_eq_false, if_false]
  · intro ds job hjob
    have h := handleAll_notLegacy ds newJobs (by simp [newJobs]) job hjob
    simpa [notLegacy] using h
  · intro ds
    exact snapshot_length_handleAll ds
  · intro ds l1 l2 l3 m g hperm h1 h2 h3 hm hg hnodup
    rw [snapshot_length_handleAll ds]
    have hsub : ((ds.filter notLegacy).map (fun d => d.Digest)).Nodup :=
      List.Nodup.sublist (List.Sublist.map _ (List.filter_sublist ds)) hnodup
    rw [List.Nodup.dedup hsub, List.length_map, (hperm.filter notLegacy).length_eq]
    simp [List.filter_cons, notLegacy, h1, h2, h3, hm, hg]

/-- Witness for C6: the five descriptors of `sampleDescriptors` leave 4 tracked
jobs. -/
theorem C6_handler_filters_legacy_manifest_witness :
    (handleAll pullImageHandler newJobs sampleDescriptors).Snapshot.length = 4 :=
  C6_handler_filters_legacy_manifest.2.2.2.2.2.2 sampleDescriptors
    { MediaType := images.MediaTypeDockerSchema2LayerGzip, Digest := ⟨"sha256:l1"⟩, Size := 4096 }
    { MediaType := images.MediaTypeDockerSchema2LayerGzip, Digest := ⟨"sha256:l2"⟩, Size := 8192 }
    { MediaType := images.MediaTypeDockerSchema2LayerGzip, Digest := ⟨"sha256:l3"⟩, Size := 512 }
    { MediaType := images.MediaTypeDockerSchema2Manifest, Digest := ⟨"sha256:m2"⟩, Size := 1200 }
    { MediaType := images.MediaTypeDockerSchema1Manifest, Digest := ⟨"sha256:m1"⟩, Size := 900 }
    (by decide) (by decide) (by decide) (by decide) (by decide) (by decide) (by decide)

end Moby
